import Mathlib

/-!
Verification development for the `agent-skills-vscode` sidebar
state-and-synchronization engine.

The definitions below are a shallow embedding of the TypeScript sources:

* `src/skillsSidebarProvider.ts` — the sidebar coordinator
  (`_fetchMarketplaceSkills`, `_handleSearch`, `_loadMoreSkills`,
  `_deleteSkill`, `_deleteSkillPath`) and the inline webview renderer
  (`renderMarketplace`).
* `src/webview/skillsSidebarController.ts` — the webview controller
  (`renderInstalled`'s marketplace cross-reference).
* `src/skillInstaller.ts` — `installWithOptionsMultiple`.
* `src/types.ts` — `SkillLevel`, `CompatibilityMode`, `Skill`.
* `src/skillsMarketplaceTypes.ts` — the marketplace record type used by
  the webview controller.

The coordinator runs on a single event loop: each `async` method is split
at its `await` points into a synchronous "start" step (which tags the
request) and a synchronous "completion" step (which receives the network
result as an `Except String SkillsApiResponse`).  Network, filesystem and
cache effects are abstracted into explicit parameters / returned effect
markers; every state transition on the provider's fields is modelled
exactly as it is written in the source.
-/

/-- `SkillLevel` from `src/types.ts`. -/
inductive SkillLevel where
  | project
  | user
deriving DecidableEq, Repr

/-- `CompatibilityMode` from `src/types.ts` (latest iteration, including
`universal`). -/
inductive CompatibilityMode where
  | universal
  | cursor
  | claude
  | codex
  | gemini
  | opencode
  | agent
deriving DecidableEq, Repr

/-- `Skill` from `src/types.ts`: an installed skill record produced by the
scanner, with the separately-persisted optional marketplace
cross-reference. -/
structure Skill where
  name : String
  description : String
  path : String
  level : SkillLevel
  mode : CompatibilityMode
  updatedAt : Option Nat := none
  marketplaceId : Option String := none
  updateAvailable : Bool := false
deriving DecidableEq, Repr

/-- `MarketplaceSkill` as declared at the top of
`src/skillsSidebarProvider.ts`: the record type held in the coordinator's
marketplace list. -/
structure MarketplaceSkill where
  id : String
  name : String
  installs : Nat
  topSource : String
deriving DecidableEq, Repr

/-- `SkillsApiResponse` from `src/skillsSidebarProvider.ts`: the envelope
returned by both the browse and the search endpoints. -/
structure SkillsApiResponse where
  skills : List MarketplaceSkill
  hasMore : Bool
deriving DecidableEq, Repr

/-- The active panel of the sidebar. -/
inductive Panel where
  | installed
  | marketplace
deriving DecidableEq, Repr

/-- The mutable fields of `SkillsSidebarProvider` that the marketplace
protocols read and write (the `_`-prefixed instance fields of
`src/skillsSidebarProvider.ts`). -/
structure ProviderState where
  installedSkills : List Skill := []
  marketplaceSkills : List MarketplaceSkill := []
  isLoadingMarketplace : Bool := false
  isLoadingMore : Bool := false
  marketplaceError : Option String := none
  hasMore : Bool := false
  currentOffset : Nat := 0
  searchQuery : String := ""
  isSearching : Bool := false
  activePanel : Panel := Panel.installed
  lastBrowseSkills : List MarketplaceSkill := []
  lastBrowseHasMore : Bool := false
  lastBrowseOffset : Nat := 0
  searchRequestId : Nat := 0
  browseRequestId : Nat := 0
deriving DecidableEq, Repr

/-- `PAGE_SIZE` from `src/skillsSidebarProvider.ts`. -/
def PAGE_SIZE : Nat := 50

/-- JavaScript `String.prototype.trim`: strip leading and trailing
whitespace.  (Structurally recursive stand-in for `String.trim`, which
does not reduce in the kernel.) -/
def jsTrim (s : String) : String :=
  String.mk (((s.data.dropWhile Char.isWhitespace).reverse.dropWhile
    Char.isWhitespace).reverse)

/-- JavaScript `String.prototype.toLowerCase` (ASCII range, which covers
every path this code lowercases). -/
def jsToLower (s : String) : String :=
  String.mk (s.data.map Char.toLower)

/-- The cached marketplace blob (`CachedData` under
`CACHE_KEY_MARKETPLACE`); `fresh` abstracts the caller-side check
`(Date.now() - cached.timestamp) < CACHE_TTL_MS`. -/
structure CachedMarketplace where
  skills : List MarketplaceSkill
  cachedHasMore : Bool
  fresh : Bool
deriving DecidableEq, Repr

/-- The dispatch tail of `_fetchMarketplaceSkills` (lines 186–195):
conditionally flips the loading flag, then tags the request with the
incremented browse counter.  Returns the new state and the request id of
the dispatched page-1 fetch. -/
def fetchMarketplaceDispatch (s : ProviderState) : ProviderState × Nat :=
  let shouldApplyAtStart := ¬s.isSearching ∧ jsTrim s.searchQuery = ""
  let s1 :=
    if shouldApplyAtStart then
      { s with isLoadingMarketplace := true, marketplaceError := none, currentOffset := 0 }
    else s
  ({ s1 with browseRequestId := s1.browseRequestId + 1 }, s1.browseRequestId + 1)

/-- `_fetchMarketplaceSkills` up to its `await` (lines 172–195): the
re-entrancy guard, the cache fast-path, and the dispatch.  `none` in the
second component means no network request was dispatched. -/
def fetchMarketplaceStart (s : ProviderState) (forceRefresh : Bool)
    (cached : Option CachedMarketplace) : ProviderState × Option Nat :=
  if s.isLoadingMarketplace then (s, none)
  else
    match forceRefresh, cached with
    | false, some c =>
      if c.fresh ∧ 0 < s.marketplaceSkills.length then
        ({ s with hasMore := c.cachedHasMore, isLoadingMarketplace := false }, none)
      else
        ((fetchMarketplaceDispatch s).1, some (fetchMarketplaceDispatch s).2)
    | _, _ =>
      ((fetchMarketplaceDispatch s).1, some (fetchMarketplaceDispatch s).2)

/-- `_fetchMarketplaceSkills` from its `await` to the end (lines
197–237).  `requestId` is the id captured at dispatch, `result` the
outcome of the HTTP request.  The cache write on success has no effect on
provider state and is omitted. -/
def fetchMarketplaceComplete (s : ProviderState) (requestId : Nat)
    (result : Except String SkillsApiResponse) : ProviderState :=
  match result with
  | Except.ok response =>
    if requestId ≠ s.browseRequestId then s
    else
      let s1 := { s with
        lastBrowseSkills := response.skills
        lastBrowseHasMore := response.hasMore
        lastBrowseOffset := response.skills.length }
      if ¬s1.isSearching ∧ jsTrim s1.searchQuery = "" then
        let s2 := { s1 with
          marketplaceSkills := response.skills
          hasMore := response.hasMore
          currentOffset := response.skills.length }
        let s3 :=
          if s2.marketplaceSkills.length = 0 then
            { s2 with marketplaceError := some "No skills found in response. Try refreshing." }
          else s2
        { s3 with isLoadingMarketplace := false }
      else s1
  | Except.error msg =>
    if requestId ≠ s.browseRequestId then s
    else if ¬s.isSearching ∧ jsTrim s.searchQuery = "" then
      { s with
        marketplaceError := some ("Failed to load: " ++ msg)
        isLoadingMarketplace := false }
    else s

/-- What `_handleSearch` does besides mutating state: dispatch a remote
search tagged with a request id, kick off a background (`void`-ed) forced
browse revalidation, or `await` a forced browse fetch. -/
inductive SearchEffect where
  | dispatchSearch (rid : Nat)
  | revalidateBrowse
  | awaitBrowseFetch
deriving DecidableEq, Repr

/-- `_handleSearch` up to its `await` (lines 239–266): stores the raw
query, switches the panel, bumps the search counter, and either restores
the saved browse snapshot (empty trimmed query) or marks the search as
loading and dispatches the tagged remote search. -/
def handleSearch (s : ProviderState) (query : String) : ProviderState × SearchEffect :=
  let trimmedQuery := jsTrim query
  let s1 := { s with
    searchQuery := query
    activePanel := Panel.marketplace
    searchRequestId := s.searchRequestId + 1 }
  if trimmedQuery = "" then
    let s2 := { s1 with
      isSearching := false
      isLoadingMarketplace := false
      marketplaceError := none }
    if 0 < s2.lastBrowseSkills.length then
      ({ s2 with
          marketplaceSkills := s2.lastBrowseSkills
          hasMore := s2.lastBrowseHasMore
          currentOffset := s2.lastBrowseOffset
          marketplaceError := none
          isLoadingMarketplace := false },
        SearchEffect.revalidateBrowse)
    else
      (s2, SearchEffect.awaitBrowseFetch)
  else
    ({ s1 with
        isSearching := true
        isLoadingMarketplace := true
        marketplaceError := none },
      SearchEffect.dispatchSearch s1.searchRequestId)

/-- `_handleSearch` from its `await` to the end (lines 268–288): apply
the search result only when the captured id is still the latest search
request id. -/
def searchComplete (s : ProviderState) (requestId : Nat)
    (result : Except String SkillsApiResponse) : ProviderState :=
  match result with
  | Except.ok response =>
    if requestId ≠ s.searchRequestId then s
    else
      { s with
        marketplaceSkills := response.skills
        hasMore := response.hasMore
        currentOffset := response.skills.length
        isLoadingMarketplace := false }
  | Except.error msg =>
    if requestId ≠ s.searchRequestId then s
    else
      { s with
        marketplaceError := some ("Search failed: " ++ msg)
        isLoadingMarketplace := false }

/-- The values `_loadMoreSkills` captures before its `await` (lines
299–301). -/
structure LoadMoreCapture where
  requestSearchId : Nat
  requestQuery : String
  requestIsSearching : Bool
deriving DecidableEq, Repr

/-- `_loadMoreSkills` up to its `await` (lines 290–309): the guard
(`_isLoadingMore || !_hasMore`), the flag set, and the capture of the
search context.  `none` means the call returned immediately without
touching state or issuing a fetch. -/
def loadMoreStart (s : ProviderState) : Option (ProviderState × LoadMoreCapture) :=
  if s.isLoadingMore ∨ s.hasMore = false then none
  else
    let s1 := { s with isLoadingMore := true, activePanel := Panel.marketplace }
    some (s1, ⟨s1.searchRequestId, jsTrim s1.searchQuery, s1.isSearching⟩)

/-- `_loadMoreSkills` from its `await` to the end (lines 310–333): the
staleness check against the captured search context, the concatenation of
the fetched page, the browse-snapshot save, and the unconditional reset of
`_isLoadingMore`. -/
def loadMoreComplete (s : ProviderState) (cap : LoadMoreCapture)
    (result : Except String SkillsApiResponse) : ProviderState :=
  match result with
  | Except.error msg =>
    { s with
      marketplaceError := some ("Failed to load more: " ++ msg)
      isLoadingMore := false }
  | Except.ok response =>
    let shouldApply :=
      if cap.requestIsSearching then
        ¬(cap.requestSearchId ≠ s.searchRequestId ∨ s.isSearching = false ∨
          jsTrim s.searchQuery ≠ cap.requestQuery)
      else
        ¬(s.isSearching = true ∨ jsTrim s.searchQuery ≠ cap.requestQuery)
    let s1 :=
      if shouldApply then
        let s' := { s with
          marketplaceSkills := s.marketplaceSkills ++ response.skills
          hasMore := response.hasMore
          currentOffset := s.currentOffset + response.skills.length }
        if ¬s'.isSearching ∨ jsTrim s'.searchQuery = "" then
          { s' with
            lastBrowseSkills := s'.marketplaceSkills
            lastBrowseHasMore := s'.hasMore
            lastBrowseOffset := s'.currentOffset }
        else s'
      else s
    { s1 with isLoadingMore := false }

/-- The pushed snapshot `_getWebviewState` (lines 1369–1384): the fields
of the provider state that are serialized and posted to the webview on
every `_updateWebview`. -/
structure WebviewState where
  installedSkills : List Skill
  marketplaceSkills : List MarketplaceSkill
  isLoadingMarketplace : Bool
  isLoadingMore : Bool
  hasMore : Bool
  marketplaceError : Option String
  searchQuery : String
  activePanel : Panel
deriving DecidableEq, Repr

/-- `_getWebviewState` from `src/skillsSidebarProvider.ts`. -/
def getWebviewState (s : ProviderState) : WebviewState :=
  { installedSkills := s.installedSkills
    marketplaceSkills := s.marketplaceSkills
    isLoadingMarketplace := s.isLoadingMarketplace
    isLoadingMore := s.isLoadingMore
    hasMore := s.hasMore
    marketplaceError := s.marketplaceError
    searchQuery := s.searchQuery
    activePanel := s.activePanel }

/-- JavaScript truthiness of an optional string (`undefined`, `null` and
`""` are falsy). -/
def jsTruthy : Option String → Bool
  | none => false
  | some v => v ≠ ""

/-- The mutually exclusive views `renderMarketplace` can produce. -/
inductive RenderOutcome where
  | loadingView
  | errorRetryView (msg : String)
  | emptyView
  | itemsView (items : List MarketplaceSkill)
deriving DecidableEq, Repr

/-- The branch structure of the webview's `renderMarketplace`
(`src/skillsSidebarProvider.ts` lines 1153–1212, identically in
`src/webview/skillsSidebarController.ts`): loading placeholder only while
empty, the retryable error view only while empty, otherwise the item
list. -/
def renderMarketplace (isLoading : Bool) (marketplace : List MarketplaceSkill)
    (loadError : Option String) : RenderOutcome :=
  if isLoading ∧ marketplace.length = 0 then
    RenderOutcome.loadingView
  else if jsTruthy loadError ∧ marketplace.length = 0 then
    RenderOutcome.errorRetryView (loadError.getD "")
  else if marketplace.length = 0 then
    RenderOutcome.emptyView
  else
    RenderOutcome.itemsView marketplace

namespace MarketplaceTypes

/-- `MarketplaceSkill` from `src/skillsMarketplaceTypes.ts`: the record
shape the webview controller renders (`source`, not `topSource`). -/
structure MarketplaceSkill where
  id : String
  skillId : String
  name : String
  installs : Nat
  source : String
deriving DecidableEq, Repr

end MarketplaceTypes

/-- The reinstall cross-reference of `renderInstalled` in
`src/webview/skillsSidebarController.ts` (lines 119–124):

    const marketplaceMatch = s.marketplaceId
        ? marketplace.find(m => m.id === s.marketplaceId)
        : marketplace.filter(m => m.name === s.name).length === 1
            ? marketplace.find(m => m.name === s.name)
            : null;
-/
def marketplaceMatch (s : Skill)
    (marketplace : List MarketplaceTypes.MarketplaceSkill) :
    Option MarketplaceTypes.MarketplaceSkill :=
  if jsTruthy s.marketplaceId then
    marketplace.find? (fun m => m.id == s.marketplaceId.getD "")
  else if (marketplace.filter (fun m => m.name == s.name)).length = 1 then
    marketplace.find? (fun m => m.name == s.name)
  else
    none

/-- Does `pattern` occur as a contiguous run inside `s`? -/
def containsSeq (pattern : List Char) : List Char → Bool
  | [] => pattern.isEmpty
  | c :: rest => pattern.isPrefixOf (c :: rest) || containsSeq pattern rest

/-- `includes` on strings, as used by
`normalizedLower.includes(agentsMarker)`. -/
def containsSubstring (s pattern : String) : Bool :=
  containsSeq pattern.data s.data

/-- The marker `` `${path.sep}.agents${path.sep}skills${path.sep}` `` from
`_deleteSkill` (line 574), with `path.sep = "/"`. -/
def agentsMarker : String := "/.agents/skills/"

/-- The decision of `_deleteSkill` (lines 572–575): a resolved symlink
target is additionally deleted only when its lower-cased normalized path
contains the shared-install marker.  `realpath` always yields an
absolute, already-normalized path, so `path.normalize` is the
identity here. -/
def shouldDeleteSource (resolvedTarget : String) : Bool :=
  containsSubstring (jsToLower resolvedTarget) agentsMarker

/-- Split a character list at every `'/'` (the path separator). -/
def splitOnSlash : List Char → List (List Char)
  | [] => [[]]
  | ch :: rest =>
    let r := splitOnSlash rest
    if ch = '/' then [] :: r
    else
      match r with
      | [] => [[ch]]
      | grp :: gs => (ch :: grp) :: gs

/-- Last path component, as `path.basename` on a normalized
slash-separated path. -/
def pathBasename (p : String) : String :=
  String.mk ((splitOnSlash p.data).getLastD [])

/-- All but the last path component, as `path.dirname` on a normalized
slash-separated path. -/
def pathDirname (p : String) : String :=
  String.mk (List.intercalate ['/'] (splitOnSlash p.data).dropLast)

/-- The filesystem facts `_deleteSkillPath` queries: whether a path is a
symbolic link (`lstat().isSymbolicLink()`), and its `realpath`. -/
structure FsView where
  isSymlink : String → Bool
  realpathOf : String → String

/-- `_deleteSkillPath` (lines 590–607): compute the directory to remove
(the parent when the stored path names a `SKILL.md` file), record the
resolved target when the path is a symlink, and remove the target path
itself.  Returns `(targetPath, resolvedTarget?)` exactly as the source
does; the `rm` of `targetPath` is accounted for in `deleteSkillTargets`. -/
def deleteSkillPath (fsv : FsView) (skillPath : String) :
    String × Option String :=
  let baseName := jsToLower (pathBasename skillPath)
  let isSkillMarkdown := baseName = "skill.md"
  let targetPath := if isSkillMarkdown then pathDirname skillPath else skillPath
  let resolvedTarget :=
    if fsv.isSymlink targetPath then some (fsv.realpathOf targetPath) else none
  (targetPath, resolvedTarget)

/-- The `pathsToDelete` computation of `_deleteSkill` (lines 554–557). -/
def deleteSkillPathsToDelete (installedSkills : List Skill)
    (skillPath name : String) (removeAll : Bool) : List String :=
  if removeAll then
    (installedSkills.filter (fun sk => sk.name == name)).map (·.path)
  else
    [skillPath]

/-- The deletion loop of `_deleteSkill` (lines 559–580): every
`targetPath` is removed, and afterwards each distinct resolved symlink
target is additionally removed iff it carries the shared-install marker
and was not already removed as a `targetPath`.  The result lists every
filesystem path passed to `fs.promises.rm`; `List.dedup` stands in for
the `Set` of resolved targets (only membership matters below). -/
def deleteSkillTargets (fsv : FsView) (pathsToDelete : List String) :
    List String :=
  let results := pathsToDelete.map (deleteSkillPath fsv)
  let deletedTargets := results.map (·.1)
  let resolvedTargets := (results.filterMap (·.2)).dedup
  deletedTargets ++
    resolvedTargets.filter
      (fun rt => shouldDeleteSource rt ∧ ¬deletedTargets.contains rt)

/-- `InstallMethod` from `src/skillInstaller.ts`. -/
inductive InstallMethod where
  | symlink
  | copy
deriving DecidableEq, Repr

/-- `InstallMultipleOptions` from `src/skillInstaller.ts`. -/
structure InstallMultipleOptions where
  repo : String
  skillName : Option String
  level : SkillLevel
  modes : List CompatibilityMode
  method : InstallMethod
  enableTelemetry : Bool
deriving DecidableEq, Repr

/-- The side effects `installWithOptionsMultiple` can perform: spawning
the installer subprocess (single- or multi-agent) and the
symlink-to-copy conversion pass over the filesystem. -/
inductive InstallerAction where
  | runInstall (repo : String) (skillName : Option String)
      (level : SkillLevel) (mode : CompatibilityMode) (enableTelemetry : Bool)
  | runInstallMany (opts : InstallMultipleOptions)
  | convertSymlinksToCopies (opts : InstallMultipleOptions)
deriving DecidableEq, Repr

/-- `installWithOptionsMultiple` from `src/skillInstaller.ts` (lines
66–88), with the subprocess outcome abstracted as `subprocessSucceeds`.
Returns the boolean result together with the ordered list of effects the
call performs. -/
def installWithOptionsMultiple (opts : InstallMultipleOptions)
    (subprocessSucceeds : Bool) : Bool × List InstallerAction :=
  match opts.modes with
  | [] => (false, [])
  | [m] =>
    let success := subprocessSucceeds
    (success,
      InstallerAction.runInstall opts.repo opts.skillName opts.level m
          opts.enableTelemetry ::
        (if success ∧ opts.method = InstallMethod.copy then
          [InstallerAction.convertSymlinksToCopies opts]
        else []))
  | _ :: _ :: _ =>
    let success := subprocessSucceeds
    (success,
      InstallerAction.runInstallMany opts ::
        (if success ∧ opts.method = InstallMethod.copy then
          [InstallerAction.convertSymlinksToCopies opts]
        else []))

/-- An event of the search operation class: a keystroke reaching
`_handleSearch` (after the webview debounce) or the completion of a
previously dispatched remote search. -/
inductive SearchEv where
  | start (query : String)
  | complete (rid : Nat) (result : Except String SkillsApiResponse)

/-- The state transition of one search-class event. -/
def searchStep (s : ProviderState) : SearchEv → ProviderState
  | SearchEv.start q => (handleSearch s q).1
  | SearchEv.complete rid r => searchComplete s rid r

/-! ### Concrete records used by witnesses and counterexamples -/

/-- A sample marketplace record. -/
def skillA : MarketplaceSkill :=
  { id := "a1", name := "alpha", installs := 10, topSource := "acme/tools" }

/-- A second sample marketplace record with a different `id`. -/
def skillB : MarketplaceSkill :=
  { id := "b2", name := "beta", installs := 5, topSource := "acme/libs" }

/-- A coordinator state with an active search (`_isSearching = true`,
non-blank query) and `_hasMore = true`. -/
def searchActiveState : ProviderState :=
  { marketplaceSkills := [skillA], hasMore := true, currentOffset := 1,
    searchQuery := "pdf", isSearching := true, activePanel := Panel.marketplace }

/-! ### C6 — the load-more guard -/

/-- Claim C6 (corrected): `_loadMoreSkills` returns immediately, without
touching state or dispatching a fetch, exactly when a load-more is
already in flight or `hasMore` is false.  An active search does **not**
make it a no-op (the guard on line 291 checks only
`_isLoadingMore || !_hasMore`). -/
theorem loadMore_noop_iff (s : ProviderState) :
    loadMoreStart s = none ↔ (s.isLoadingMore = true ∨ s.hasMore = false) := by
  unfold loadMoreStart
  split_ifs with h
  · simpa using h
  · simpa using h

/-- Counterexample to claim C6 as stated: with a search active
(`_isSearching = true`, query `"pdf"`), `_hasMore = true` and no load in
flight, `_loadMoreSkills` is **not** a no-op — it proceeds (sets
`_isLoadingMore` and dispatches a fetch). -/
theorem loadMore_not_noop_during_search :
    searchActiveState.isSearching = true ∧
    searchActiveState.searchQuery = "pdf" ∧
    searchActiveState.hasMore = true ∧
    searchActiveState.isLoadingMore = false ∧
    (loadMoreStart searchActiveState).isSome = true := by
  decide

/-! ### C9 — installer early return on empty modes -/

/-- Claim C9: `installWithOptionsMultiple` with an empty `modes` array
returns `false` immediately, spawning no installer subprocess and
performing no symlink-to-copy conversion. -/
theorem installWithOptionsMultiple_empty_modes
    (opts : InstallMultipleOptions) (subprocessSucceeds : Bool)
    (h : opts.modes = []) :
    installWithOptionsMultiple opts subprocessSucceeds = (false, []) := by
  unfold installWithOptionsMultiple
  rw [h]

/-- Sample install options with no target agents selected. -/
def emptyModesOptions : InstallMultipleOptions :=
  { repo := "acme/tools", skillName := some "pdf-export",
    level := SkillLevel.project, modes := [],
    method := InstallMethod.copy, enableTelemetry := false }

/-- Witness for C9 at a concrete input. -/
theorem installWithOptionsMultiple_empty_modes_witness :
    emptyModesOptions.modes = [] ∧
    installWithOptionsMultiple emptyModesOptions true = (false, []) :=
  ⟨rfl, installWithOptionsMultiple_empty_modes emptyModesOptions true rfl⟩

/-! ### C10 — `_isLoadingMore` is always reset -/

/-- Claim C10: every completion of `_loadMoreSkills` — success, failure,
or a result suppressed as stale — resets `_isLoadingMore` to `false`, so
if `hasMore` is still true a subsequent load-more intent passes the
guard. -/
theorem loadMoreComplete_resets_isLoadingMore (s : ProviderState)
    (cap : LoadMoreCapture) (r : Except String SkillsApiResponse) :
    (loadMoreComplete s cap r).isLoadingMore = false ∧
    ((loadMoreComplete s cap r).hasMore = true →
      (loadMoreStart (loadMoreComplete s cap r)).isSome = true) := by
  have hflag : (loadMoreComplete s cap r).isLoadingMore = false := by
    unfold loadMoreComplete
    cases r <;> simp
  refine ⟨hflag, fun hmore => ?_⟩
  unfold loadMoreStart
  rw [if_neg]
  · simp
  · simp [hflag, hmore]

/-- A started load-more state used by the C10 witness. -/
def loadingMoreState : ProviderState :=
  { marketplaceSkills := [skillA], hasMore := true, currentOffset := 1,
    isLoadingMore := true, activePanel := Panel.marketplace,
    lastBrowseSkills := [skillA], lastBrowseHasMore := true,
    lastBrowseOffset := 1 }

/-- Witness for C10 at a concrete input (a successful browse load-more
whose response still has more pages). -/
theorem loadMoreComplete_resets_isLoadingMore_witness :
    (loadMoreComplete loadingMoreState ⟨0, "", false⟩
        (Except.ok { skills := [skillB], hasMore := true })).hasMore = true ∧
    (loadMoreStart (loadMoreComplete loadingMoreState ⟨0, "", false⟩
        (Except.ok { skills := [skillB], hasMore := true }))).isSome = true :=
  ⟨by decide,
    (loadMoreComplete_resets_isLoadingMore loadingMoreState ⟨0, "", false⟩
        (Except.ok { skills := [skillB], hasMore := true })).2 (by decide)⟩

/-! ### C2 — pagination merge does not deduplicate -/

/-- The fully evaluated applied browse case of `_loadMoreSkills` (shared
by several theorems below): when the captured context was browse mode and
browse mode still holds at completion, a successful page is concatenated,
the envelope's `hasMore` is copied, the offset is advanced by the page
length, and the browse snapshot is saved. -/
theorem loadMoreComplete_browse_applied (s : ProviderState)
    (cap : LoadMoreCapture) (resp : SkillsApiResponse)
    (hcap : cap.requestIsSearching = false)
    (hs : s.isSearching = false)
    (hq : jsTrim s.searchQuery = cap.requestQuery) :
    loadMoreComplete s cap (Except.ok resp) =
      { s with
        marketplaceSkills := s.marketplaceSkills ++ resp.skills
        hasMore := resp.hasMore
        currentOffset := s.currentOffset + resp.skills.length
        lastBrowseSkills := s.marketplaceSkills ++ resp.skills
        lastBrowseHasMore := resp.hasMore
        lastBrowseOffset := s.currentOffset + resp.skills.length
        isLoadingMore := false } := by
  simp only [loadMoreComplete, hcap, if_false]
  rw [if_pos, if_pos]
  · simp [hs]
  · simp [hs, hq]

/-- A browse-mode state holding one page-record, ready for load-more. -/
def browseDupState : ProviderState :=
  { marketplaceSkills := [skillA], hasMore := true, currentOffset := 1,
    lastBrowseSkills := [skillA], lastBrowseHasMore := true,
    lastBrowseOffset := 1 }

/-- `browseDupState` after `loadMoreStart`. -/
def browseDupStarted : ProviderState :=
  { browseDupState with isLoadingMore := true, activePanel := Panel.marketplace }

/-- The search context captured by `loadMoreStart browseDupState`. -/
def browseDupCap : LoadMoreCapture :=
  { requestSearchId := 0, requestQuery := "", requestIsSearching := false }

/-- Counterexample to claim C2 as stated: a load-more whose page
re-returns the already-present record `skillA` yields `[skillA, skillA]`
— the merged sequence is **not** deduplicated by `id` and its length
grows. -/
theorem loadMore_duplicates_not_deduped :
    loadMoreStart browseDupState = some (browseDupStarted, browseDupCap) ∧
    (loadMoreComplete browseDupStarted browseDupCap
        (Except.ok { skills := [skillA], hasMore := true })).marketplaceSkills
      = [skillA, skillA] ∧
    ¬ ((loadMoreComplete browseDupStarted browseDupCap
        (Except.ok { skills := [skillA], hasMore := true })).marketplaceSkills.map
          MarketplaceSkill.id).Nodup := by
  refine ⟨by decide, by decide, ?_⟩
  decide

/-- Claim C2 (corrected): `_loadMoreSkills` merges an applied successful
page by plain concatenation (line 318) — there is no deduplication by
`id`, so the multiplicity of every record is additive. -/
theorem loadMore_merge_is_concat (s : ProviderState) (cap : LoadMoreCapture)
    (resp : SkillsApiResponse)
    (hcap : cap.requestIsSearching = false)
    (hs : s.isSearching = false)
    (hq : jsTrim s.searchQuery = cap.requestQuery) :
    (loadMoreComplete s cap (Except.ok resp)).marketplaceSkills
      = s.marketplaceSkills ++ resp.skills ∧
    ∀ m : MarketplaceSkill,
      (loadMoreComplete s cap (Except.ok resp)).marketplaceSkills.count m
        = s.marketplaceSkills.count m + resp.skills.count m := by
  rw [loadMoreComplete_browse_applied s cap resp hcap hs hq]
  exact ⟨rfl, fun m => List.count_append m s.marketplaceSkills resp.skills⟩

/-- Witness for C2 (amended) at a concrete input. -/
theorem loadMore_merge_is_concat_witness :
    (loadMoreComplete browseDupStarted browseDupCap
        (Except.ok { skills := [skillB, skillA], hasMore := false })).marketplaceSkills
      = [skillA] ++ [skillB, skillA] :=
  (loadMore_merge_is_concat browseDupStarted browseDupCap
      { skills := [skillB, skillA], hasMore := false }
      (by decide) (by decide) (by decide)).1

/-! ### C3 — `hasMore` comes from the response envelope -/

/-- A browse page of 12 records whose envelope still advertises more. -/
def page12 : SkillsApiResponse :=
  { skills := (List.range 12).map
      (fun i => { id := "r", name := "r", installs := i, topSource := "s" }),
    hasMore := true }

/-- A state with a dispatched page-1 browse fetch (request id 1). -/
def browseFetchState : ProviderState :=
  { isLoadingMarketplace := true, browseRequestId := 1 }

/-- Counterexample to claim C3 as stated: a completed page fetch of 12
records (strictly fewer than the page size 50, and non-empty) leaves
`hasMore = true`, because the code copies `response.hasMore` from the
envelope instead of comparing the page length against 50. -/
theorem hasMore_not_from_page_length :
    page12.skills.length = 12 ∧
    page12.skills.length < PAGE_SIZE ∧
    page12.skills.length ≠ 0 ∧
    (fetchMarketplaceComplete browseFetchState 1 (Except.ok page12)).hasMore
      = true := by
  refine ⟨by decide, by decide, by decide, ?_⟩
  decide

/-- Claim C3 (corrected): after an applied browse page-1 fetch or an
applied browse load-more, `hasMore` equals the `hasMore` field of the
response envelope (it is not derived from the page length); the merged
length after a load-more is the sum of the lengths. -/
theorem hasMore_from_envelope :
    (∀ (s : ProviderState) (resp : SkillsApiResponse),
        s.isSearching = false → jsTrim s.searchQuery = "" →
        (fetchMarketplaceComplete s s.browseRequestId (Except.ok resp)).hasMore
          = resp.hasMore) ∧
    (∀ (s : ProviderState) (cap : LoadMoreCapture) (resp : SkillsApiResponse),
        cap.requestIsSearching = false → s.isSearching = false →
        jsTrim s.searchQuery = cap.requestQuery →
        (loadMoreComplete s cap (Except.ok resp)).hasMore = resp.hasMore ∧
        (loadMoreComplete s cap (Except.ok resp)).marketplaceSkills.length
          = s.marketplaceSkills.length + resp.skills.length) := by
  constructor
  · intro s resp hs hq
    simp only [fetchMarketplaceComplete]
    rw [if_neg (by simp), if_pos (by simp [hs, hq])]
    split <;> rfl
  · intro s cap resp hcap hs hq
    rw [loadMoreComplete_browse_applied s cap resp hcap hs hq]
    exact ⟨rfl, List.length_append _ _⟩

/-- Witness for C3 (amended) at a concrete input. -/
theorem hasMore_from_envelope_witness :
    (fetchMarketplaceComplete browseFetchState
        browseFetchState.browseRequestId (Except.ok page12)).hasMore
      = page12.hasMore :=
  hasMore_from_envelope.1 browseFetchState page12 (by decide) (by decide)

/-! ### C5 — fetch failure with existing data -/

/-- A browse-mode state with one record shown and a dispatched page-1
fetch (request id 1). -/
def browseErrorState : ProviderState :=
  { marketplaceSkills := [skillA], isLoadingMarketplace := true,
    hasMore := true, currentOffset := 1, browseRequestId := 1,
    lastBrowseSkills := [skillA], lastBrowseHasMore := true,
    lastBrowseOffset := 1 }

/-- Counterexample to claim C5 as stated: when the page-1 fetch fails
while the marketplace list is non-empty, the error **is** recorded in the
coordinator state and hence in the pushed snapshot
(`_getWebviewState().marketplaceError`); it is not dropped. -/
theorem fetch_error_recorded_in_state :
    browseErrorState.marketplaceSkills ≠ [] ∧
    (getWebviewState (fetchMarketplaceComplete browseErrorState 1
        (Except.error "network down"))).marketplaceError
      = some "Failed to load: network down" := by
  refine ⟨by decide, ?_⟩
  decide

/-- Claim C5 (corrected): when a browse page-1 fetch fails and records
already exist, the error string is recorded in the pushed state, but the
webview keeps rendering the existing records — `renderMarketplace` shows
the retryable error view only when the marketplace list is empty. -/
theorem fetch_error_kept_data_rendering (s : ProviderState) (msg : String)
    (hs : s.isSearching = false) (hq : jsTrim s.searchQuery = "")
    (hne : s.marketplaceSkills ≠ []) :
    ((fetchMarketplaceComplete s s.browseRequestId
        (Except.error msg)).marketplaceError
      = some ("Failed to load: " ++ msg)) ∧
    ((fetchMarketplaceComplete s s.browseRequestId
        (Except.error msg)).marketplaceSkills = s.marketplaceSkills) ∧
    (renderMarketplace
        (fetchMarketplaceComplete s s.browseRequestId
          (Except.error msg)).isLoadingMarketplace
        (fetchMarketplaceComplete s s.browseRequestId
          (Except.error msg)).marketplaceSkills
        (fetchMarketplaceComplete s s.browseRequestId
          (Except.error msg)).marketplaceError
      = RenderOutcome.itemsView s.marketplaceSkills) ∧
    (∀ (isLoading : Bool) (l : List MarketplaceSkill) (e : Option String)
        (m : String),
        renderMarketplace isLoading l e = RenderOutcome.errorRetryView m →
        l = []) := by
  have hstate : fetchMarketplaceComplete s s.browseRequestId (Except.error msg)
      = { s with
          marketplaceError := some ("Failed to load: " ++ msg)
          isLoadingMarketplace := false } := by
    simp only [fetchMarketplaceComplete]
    rw [if_neg (by simp), if_pos (by simp [hs, hq])]
  have hlen : s.marketplaceSkills.length ≠ 0 := by
    simpa [List.length_eq_zero] using hne
  refine ⟨by rw [hstate], by rw [hstate], ?_, ?_⟩
  · rw [hstate]
    simp only [renderMarketplace]
    rw [if_neg (by simp [hlen]), if_neg (by simp [hlen]), if_neg hlen]
  · intro isLoading l e m h
    simp only [renderMarketplace] at h
    split_ifs at h with h1 h2 h3 <;>
      first
        | exact List.length_eq_zero.mp h2.2
        | exact absurd h (by simp)

/-- Witness for C5 (amended) at a concrete input. -/
theorem fetch_error_kept_data_rendering_witness :
    ((fetchMarketplaceComplete browseErrorState
        browseErrorState.browseRequestId
        (Except.error "boom")).marketplaceError = some "Failed to load: boom") ∧
    (renderMarketplace
        (fetchMarketplaceComplete browseErrorState
          browseErrorState.browseRequestId
          (Except.error "boom")).isLoadingMarketplace
        (fetchMarketplaceComplete browseErrorState
          browseErrorState.browseRequestId
          (Except.error "boom")).marketplaceSkills
        (fetchMarketplaceComplete browseErrorState
          browseErrorState.browseRequestId
          (Except.error "boom")).marketplaceError
      = RenderOutcome.itemsView browseErrorState.marketplaceSkills) :=
  have h := fetch_error_kept_data_rendering browseErrorState "boom"
    (by decide) (by decide) (by decide)
  ⟨h.1, h.2.2.1⟩

/-! ### C7 — reinstall cross-reference resolution -/

/-- Claim C7: the reinstall cross-reference of the webview controller
resolves by recorded `marketplaceId` when one is present (to the first
marketplace record with that `id`), and otherwise falls back to the name
only when exactly one marketplace record carries that name; two or more
same-named records yield no match. -/
theorem marketplaceMatch_resolution :
    (∀ (s : Skill) (mkt : List MarketplaceTypes.MarketplaceSkill) (X : String)
        (m : MarketplaceTypes.MarketplaceSkill),
        s.marketplaceId = some X → X ≠ "" → m ∈ mkt → m.id = X →
        ∃ m', marketplaceMatch s mkt = some m' ∧ m'.id = X) ∧
    (∀ (s : Skill) (mkt : List MarketplaceTypes.MarketplaceSkill),
        s.marketplaceId = none →
        2 ≤ (mkt.filter (fun m => m.name == s.name)).length →
        marketplaceMatch s mkt = none) ∧
    (∀ (s : Skill) (mkt : List MarketplaceTypes.MarketplaceSkill)
        (m : MarketplaceTypes.MarketplaceSkill),
        s.marketplaceId = none →
        mkt.filter (fun m => m.name == s.name) = [m] →
        ∃ m', marketplaceMatch s mkt = some m' ∧ m'.name = s.name) := by
  refine ⟨?_, ?_, ?_⟩
  · intro s mkt X m hmid hX hm hid
    unfold marketplaceMatch
    rw [hmid]
    rw [if_pos (by simp [jsTruthy, hX])]
    simp only [Option.getD_some]
    have hsome : (mkt.find? (fun mm => mm.id == X)).isSome :=
      List.find?_isSome.mpr ⟨m, hm, by simp [hid]⟩
    obtain ⟨m', hm'⟩ := Option.isSome_iff_exists.mp hsome
    exact ⟨m', hm', by simpa using List.find?_some hm'⟩
  · intro s mkt hmid hlen
    unfold marketplaceMatch
    rw [hmid]
    rw [if_neg (by simp [jsTruthy]), if_neg (by omega)]
  · intro s mkt m hmid hfil
    unfold marketplaceMatch
    rw [hmid]
    rw [if_neg (by simp [jsTruthy]), if_pos (by rw [hfil]; rfl)]
    have hmem := List.mem_filter.mp (hfil ▸ List.mem_singleton_self m)
    have hsome : (mkt.find? (fun mm => mm.name == s.name)).isSome :=
      List.find?_isSome.mpr ⟨m, hmem.1, hmem.2⟩
    obtain ⟨m', hm'⟩ := Option.isSome_iff_exists.mp hsome
    exact ⟨m', hm', by simpa using List.find?_some hm'⟩

/-- A marketplace record for the C7 witness. -/
def mm1 : MarketplaceTypes.MarketplaceSkill :=
  { id := "a1", skillId := "alpha", name := "alpha", installs := 10,
    source := "acme/tools" }

/-- An installed record with a recorded `marketplaceId`. -/
def installedWithId : Skill :=
  { name := "alpha", description := "", path := "/w/.claude/skills/alpha/SKILL.md",
    level := SkillLevel.project, mode := CompatibilityMode.claude,
    marketplaceId := some "a1" }

/-- Witness for C7 at a concrete input. -/
theorem marketplaceMatch_resolution_witness :
    ∃ m', marketplaceMatch installedWithId [mm1] = some m' ∧ m'.id = "a1" :=
  marketplaceMatch_resolution.1 installedWithId [mm1] "a1" mm1 rfl
    (by decide) (List.mem_singleton_self mm1) rfl

/-! ### C8 — symlink deletion policy -/

/-- Claim C8: in the delete protocol, every selected installation target
itself is removed; any path removed beyond those direct targets carries
the `.agents/skills/` shared-install marker (so a symlink target outside
the shared area is never additionally deleted); and a resolved symlink
target inside the shared area is removed. -/
theorem deleteSkill_symlink_policy (fsv : FsView) (pathsToDelete : List String) :
    (∀ p ∈ pathsToDelete,
      (deleteSkillPath fsv p).1 ∈ deleteSkillTargets fsv pathsToDelete) ∧
    (∀ q ∈ deleteSkillTargets fsv pathsToDelete,
      q ∉ pathsToDelete.map (fun p => (deleteSkillPath fsv p).1) →
      shouldDeleteSource q = true) ∧
    (∀ p ∈ pathsToDelete, ∀ rt, (deleteSkillPath fsv p).2 = some rt →
      shouldDeleteSource rt = true →
      rt ∈ deleteSkillTargets fsv pathsToDelete) := by
  simp only [deleteSkillTargets]
  refine ⟨?_, ?_, ?_⟩
  · intro p hp
    exact List.mem_append_left _
      (List.mem_map_of_mem _ (List.mem_map_of_mem _ hp))
  · intro q hq hnot
    rcases List.mem_append.mp hq with hleft | hright
    · rw [List.map_map] at hleft
      exact absurd hleft hnot
    · have := List.mem_filter.mp hright
      simpa using (of_decide_eq_true this.2).1
  · intro p hp rt hrt hsd
    by_cases hin :
        ((pathsToDelete.map (deleteSkillPath fsv)).map Prod.fst).contains rt
    · exact List.mem_append_left _ (by simpa using hin)
    · refine List.mem_append_right _ (List.mem_filter.mpr ⟨?_, ?_⟩)
      · exact List.mem_dedup.mpr
          (List.mem_filterMap.mpr ⟨deleteSkillPath fsv p,
            List.mem_map_of_mem _ hp, hrt⟩)
      · simp only [decide_eq_true_eq]
        exact ⟨hsd, by simpa using hin⟩

/-- A one-symlink filesystem view for the C8 witness: the installed path
is a symlink resolving into the user-global shared `.agents/skills`
area. -/
def fsvDemo : FsView :=
  { isSymlink := fun p => p == "/w/.claude/skills/alpha",
    realpathOf := fun _ => "/home/u/.agents/skills/alpha" }

/-- Witness for C8 at a concrete input: the shared-area symlink target is
deleted alongside the link. -/
theorem deleteSkill_symlink_policy_witness :
    "/home/u/.agents/skills/alpha"
      ∈ deleteSkillTargets fsvDemo ["/w/.claude/skills/alpha"] :=
  (deleteSkill_symlink_policy fsvDemo ["/w/.claude/skills/alpha"]).2.2
    "/w/.claude/skills/alpha" (List.mem_singleton_self _)
    "/home/u/.agents/skills/alpha" (by decide) (by decide)

/-! ### C1 — stale-response suppression -/

/-- A search-class completion whose captured id is no longer the latest
is discarded wholesale. -/
theorem searchComplete_stale (s : ProviderState) (rid : Nat)
    (r : Except String SkillsApiResponse) (h : rid ≠ s.searchRequestId) :
    searchComplete s rid r = s := by
  cases r <;> simp only [searchComplete] <;> rw [if_pos h]

/-- The applied case of `searchComplete`. -/
theorem searchComplete_applied (s : ProviderState) (resp : SkillsApiResponse)
    (rid : Nat) (h : rid = s.searchRequestId) :
    searchComplete s rid (Except.ok resp) =
      { s with
        marketplaceSkills := resp.skills
        hasMore := resp.hasMore
        currentOffset := resp.skills.length
        isLoadingMarketplace := false } := by
  simp only [searchComplete]
  rw [if_neg (by omega)]

/-- `_handleSearch` on a non-blank query. -/
theorem handleSearch_nonempty (s : ProviderState) (q : String)
    (hq : jsTrim q ≠ "") :
    handleSearch s q =
      ({ s with
          searchQuery := q
          activePanel := Panel.marketplace
          searchRequestId := s.searchRequestId + 1
          isSearching := true
          isLoadingMarketplace := true
          marketplaceError := none },
        SearchEffect.dispatchSearch (s.searchRequestId + 1)) := by
  unfold handleSearch
  rw [if_neg hq]

/-- Claim C1: browse and search completions are applied only when their
request id still equals the latest dispatched id of their own class; each
dispatch bumps only its own monotone counter; and in the two-search
scenario where request 1 completes after request 2, the final results are
request 2's. -/
theorem stale_response_suppression :
    (∀ (s : ProviderState) (rid : Nat) (r : Except String SkillsApiResponse),
        rid ≠ s.browseRequestId → fetchMarketplaceComplete s rid r = s) ∧
    (∀ (s : ProviderState) (rid : Nat) (r : Except String SkillsApiResponse),
        rid ≠ s.searchRequestId → searchComplete s rid r = s) ∧
    (∀ (s : ProviderState) (forceRefresh : Bool)
        (cached : Option CachedMarketplace) (s' : ProviderState) (rid : Nat),
        fetchMarketplaceStart s forceRefresh cached = (s', some rid) →
        rid = s.browseRequestId + 1 ∧ s'.browseRequestId = rid ∧
          s'.searchRequestId = s.searchRequestId) ∧
    (∀ (s : ProviderState) (q : String) (s' : ProviderState) (rid : Nat),
        handleSearch s q = (s', SearchEffect.dispatchSearch rid) →
        rid = s.searchRequestId + 1 ∧ s'.searchRequestId = rid ∧
          s'.browseRequestId = s.browseRequestId) ∧
    (∀ (s : ProviderState) (q1 q2 : String) (r1 r2 : SkillsApiResponse),
        jsTrim q1 ≠ "" → jsTrim q2 ≠ "" →
        (searchComplete
            (searchComplete (handleSearch (handleSearch s q1).1 q2).1
              (s.searchRequestId + 2) (Except.ok r2))
            (s.searchRequestId + 1) (Except.ok r1)).marketplaceSkills
          = r2.skills) := by
  have hdisp : ∀ s : ProviderState,
      (fetchMarketplaceDispatch s).2 = s.browseRequestId + 1 ∧
      (fetchMarketplaceDispatch s).1.browseRequestId = s.browseRequestId + 1 ∧
      (fetchMarketplaceDispatch s).1.searchRequestId = s.searchRequestId := by
    intro s
    simp only [fetchMarketplaceDispatch]
    split <;> simp
  refine ⟨?_, ?_, ?_, ?_, ?_⟩
  · intro s rid r h
    cases r <;> simp only [fetchMarketplaceComplete] <;> rw [if_pos h]
  · intro s rid r h
    exact searchComplete_stale s rid r h
  · intro s forceRefresh cached s' rid h
    have hd := hdisp s
    unfold fetchMarketplaceStart at h
    split_ifs at h with h1
    · simp at h
    · split at h
      · split_ifs at h with h2
        · simp at h
        · rw [Prod.mk.injEq, Option.some.injEq] at h
          obtain ⟨hs', hrid⟩ := h
          subst hs'
          subst hrid
          exact ⟨hd.1, hd.2.1.trans hd.1.symm, hd.2.2⟩
      · rw [Prod.mk.injEq, Option.some.injEq] at h
        obtain ⟨hs', hrid⟩ := h
        subst hs'
        subst hrid
        exact ⟨hd.1, hd.2.1.trans hd.1.symm, hd.2.2⟩
  · intro s q s' rid h
    by_cases h1 : jsTrim q = ""
    · exfalso
      simp only [handleSearch, if_pos h1] at h
      split_ifs at h <;>
        exact absurd (congrArg Prod.snd h) (by simp)
    · rw [handleSearch_nonempty s q h1] at h
      rw [Prod.mk.injEq, SearchEffect.dispatchSearch.injEq] at h
      obtain ⟨hs', hrid⟩ := h
      subst hs'
      subst hrid
      exact ⟨rfl, by simp, by simp⟩
  · intro s q1 q2 r1 r2 hq1 hq2
    rw [handleSearch_nonempty s q1 hq1]
    rw [handleSearch_nonempty _ q2 hq2]
    rw [searchComplete_applied _ r2 _
      (show s.searchRequestId + 2 = s.searchRequestId + 1 + 1 by omega)]
    rw [searchComplete_stale _ _ _
      (show s.searchRequestId + 1 ≠ s.searchRequestId + 1 + 1 by omega)]

/-- The coordinator's initial state (the field initializers of
`SkillsSidebarProvider`). -/
def initialProviderState : ProviderState := {}

/-- Search response for the query `"pdf"`. -/
def respA : SkillsApiResponse := { skills := [skillA], hasMore := false }

/-- Search response for the query `"pdf-export"`. -/
def respB : SkillsApiResponse := { skills := [skillB], hasMore := false }

/-- Witness for C1 at a concrete input: the out-of-order completion
scenario of spec §8, scenario B. -/
theorem stale_response_suppression_witness :
    (searchComplete
        (searchComplete
          (handleSearch (handleSearch initialProviderState "pdf").1
            "pdf-export").1
          (initialProviderState.searchRequestId + 2) (Except.ok respB))
        (initialProviderState.searchRequestId + 1) (Except.ok respA)).marketplaceSkills
      = respB.skills :=
  stale_response_suppression.2.2.2.2 initialProviderState "pdf" "pdf-export"
    respA respB (by decide) (by decide)

/-! ### C4 — clearing the search restores the saved browse snapshot -/

/-- Search-class events never write the saved browse snapshot
(`_lastBrowseSkills` / `_lastBrowseHasMore` / `_lastBrowseOffset`): both
`_handleSearch` and a search completion leave those three fields
untouched. -/
theorem searchStep_preserves_lastBrowse (s : ProviderState) (ev : SearchEv) :
    (searchStep s ev).lastBrowseSkills = s.lastBrowseSkills ∧
    (searchStep s ev).lastBrowseHasMore = s.lastBrowseHasMore ∧
    (searchStep s ev).lastBrowseOffset = s.lastBrowseOffset := by
  cases ev with
  | start q =>
    simp only [searchStep, handleSearch]
    split_ifs <;> simp
  | complete rid r =>
    cases r <;> simp only [searchStep, searchComplete] <;> split_ifs <;> simp

/-- Iterated form of `searchStep_preserves_lastBrowse`. -/
theorem searchSteps_preserve_lastBrowse (evs : List SearchEv)
    (s : ProviderState) :
    (evs.foldl searchStep s).lastBrowseSkills = s.lastBrowseSkills ∧
    (evs.foldl searchStep s).lastBrowseHasMore = s.lastBrowseHasMore ∧
    (evs.foldl searchStep s).lastBrowseOffset = s.lastBrowseOffset := by
  induction evs generalizing s with
  | nil => exact ⟨rfl, rfl, rfl⟩
  | cons ev rest ih =>
    have h1 := searchStep_preserves_lastBrowse s ev
    have h2 := ih (searchStep s ev)
    simp only [List.foldl_cons]
    exact ⟨h2.1.trans h1.1, h2.2.1.trans h1.2.1, h2.2.2.trans h1.2.2⟩

/-- `_handleSearch` on a blank query with a non-empty saved browse
snapshot: the synchronous restore branch. -/
theorem handleSearch_clear_restores (s : ProviderState)
    (hne : 0 < s.lastBrowseSkills.length) :
    handleSearch s "" =
      ({ s with
          searchQuery := ""
          activePanel := Panel.marketplace
          searchRequestId := s.searchRequestId + 1
          isSearching := false
          isLoadingMarketplace := false
          marketplaceSkills := s.lastBrowseSkills
          hasMore := s.lastBrowseHasMore
          currentOffset := s.lastBrowseOffset
          marketplaceError := none },
        SearchEffect.revalidateBrowse) := by
  simp only [handleSearch]
  rw [if_pos (by decide), if_pos (by simpa using hne)]

/-- Claim C4 (amended): if the coordinator is browse-consistent
(`_lastBrowse*` mirror the live browse snapshot, non-empty), a search
begins, and only search-class events occur until the query is cleared,
then the clear synchronously restores the pre-search records, `hasMore`
and offset, and dispatches only a background revalidation (no awaited
fetch). -/
theorem clear_search_restores_browse_snapshot (s0 : ProviderState)
    (q : String) (evs : List SearchEv)
    (hb1 : s0.lastBrowseSkills = s0.marketplaceSkills)
    (hb2 : s0.lastBrowseHasMore = s0.hasMore)
    (hb3 : s0.lastBrowseOffset = s0.currentOffset)
    (hne : s0.marketplaceSkills ≠ [])
    (hq : jsTrim q ≠ "") :
    ((handleSearch (evs.foldl searchStep (handleSearch s0 q).1) "").1.marketplaceSkills
        = s0.marketplaceSkills) ∧
    ((handleSearch (evs.foldl searchStep (handleSearch s0 q).1) "").1.hasMore
        = s0.hasMore) ∧
    ((handleSearch (evs.foldl searchStep (handleSearch s0 q).1) "").1.currentOffset
        = s0.currentOffset) ∧
    ((handleSearch (evs.foldl searchStep (handleSearch s0 q).1) "").2
        = SearchEffect.revalidateBrowse) := by
  have hstart := searchStep_preserves_lastBrowse s0 (SearchEv.start q)
  have hfold := searchSteps_preserve_lastBrowse evs (handleSearch s0 q).1
  have hLB : (evs.foldl searchStep (handleSearch s0 q).1).lastBrowseSkills
      = s0.marketplaceSkills := by
    rw [hfold.1]
    exact hstart.1.trans hb1
  have hHM : (evs.foldl searchStep (handleSearch s0 q).1).lastBrowseHasMore
      = s0.hasMore := by
    rw [hfold.2.1]
    exact hstart.2.1.trans hb2
  have hOF : (evs.foldl searchStep (handleSearch s0 q).1).lastBrowseOffset
      = s0.currentOffset := by
    rw [hfold.2.2]
    exact hstart.2.2.trans hb3
  have hpos : 0 < (evs.foldl searchStep (handleSearch s0 q).1).lastBrowseSkills.length := by
    rw [hLB]
    exact List.length_pos.mpr hne
  rw [handleSearch_clear_restores _ hpos]
  exact ⟨hLB, hHM, hOF, rfl⟩

/-- A browse-consistent pre-search state (e.g. loaded from cache). -/
def preSearchState : ProviderState :=
  { marketplaceSkills := [skillA], currentOffset := 1,
    lastBrowseSkills := [skillA], lastBrowseOffset := 1 }

/-- A stale cached marketplace blob (older than the 5-minute TTL). -/
def staleCache : CachedMarketplace :=
  { skills := [skillA], cachedHasMore := false, fresh := false }

/-- Counterexample to claim C4 as stated: with no forced refresh anywhere
(`forceRefresh = false` throughout), an **unforced** browse fetch — its
cache stale — is dispatched, a search begins while the browse snapshot
`[skillA]` is displayed, the unforced fetch then completes during the
search (overwriting `_lastBrowseSkills` with `[skillB]`), and clearing
the query restores `[skillB]`, not the snapshot `[skillA]` that was
active immediately before the search began. -/
theorem clear_restore_broken_by_unforced_fetch :
    preSearchState.marketplaceSkills = [skillA] ∧
    (fetchMarketplaceStart preSearchState false (some staleCache)).2 = some 1 ∧
    ((handleSearch (fetchMarketplaceStart preSearchState false
        (some staleCache)).1 "pdf").1.marketplaceSkills = [skillA]) ∧
    ((handleSearch
        (fetchMarketplaceComplete
          ((handleSearch (fetchMarketplaceStart preSearchState false
            (some staleCache)).1 "pdf").1)
          1 (Except.ok { skills := [skillB], hasMore := true }))
        "").1.marketplaceSkills = [skillB]) ∧
    [skillB] ≠ [skillA] := by
  refine ⟨by decide, by decide, by decide, ?_, by decide⟩
  decide

/-- A browse-consistent state for the C4 witness. -/
def c4BrowseState : ProviderState :=
  { marketplaceSkills := [skillA], hasMore := true, currentOffset := 1,
    lastBrowseSkills := [skillA], lastBrowseHasMore := true,
    lastBrowseOffset := 1 }

/-- Witness for C4 (amended) at a concrete input: search "pdf", no other
events, then clear. -/
theorem clear_search_restores_browse_snapshot_witness :
    ((handleSearch (([] : List SearchEv).foldl searchStep
        (handleSearch c4BrowseState "pdf").1) "").1.marketplaceSkills
      = c4BrowseState.marketplaceSkills) ∧
    ((handleSearch (([] : List SearchEv).foldl searchStep
        (handleSearch c4BrowseState "pdf").1) "").1.hasMore
      = c4BrowseState.hasMore) ∧
    ((handleSearch (([] : List SearchEv).foldl searchStep
        (handleSearch c4BrowseState "pdf").1) "").1.currentOffset
      = c4BrowseState.currentOffset) ∧
    ((handleSearch (([] : List SearchEv).foldl searchStep
        (handleSearch c4BrowseState "pdf").1) "").2
      = SearchEffect.revalidateBrowse) :=
  clear_search_restores_browse_snapshot c4BrowseState "pdf" []
    rfl rfl rfl (by decide) (by decide)
